import Mathlib

/-!
Verification of the medisys-frontend session, authorization, normalization and
upload-workflow logic.

The definitions below are shallow embeddings of the TypeScript source:

* `src/context/AuthContext.tsx` — `decodeJwtPayload`, `parseToken` (session
  derivation: expiry check, group-to-role mapping, fail-closed error handling).
* `src/App.tsx` — route registration per role.
* `src/pages/UserManagement.tsx` — unauthorized gate and create-user form.
* `src/pages/Reports.tsx` — report-field alias resolution for the
  admin/clinic table and the staff table, status normalization, staff sort,
  and the two-phase upload workflow.

Host-environment primitives (`atob`, `JSON.parse`) are passed as explicit
function parameters of type `String → Option _`: `none` models a thrown
exception (the surrounding `try`/`catch` in the source turns any throw into
the fail-closed path).  JavaScript `||` on strings (falsy on the empty
string) is modelled by `jsOr`; `??` (nullish coalescing) by `Option.orElse`
(`<|>`).  Storage side effects (`localStorage.removeItem`) are modelled by a
`storageCleared` flag in the result.
-/

/-- Roles, from `src/types.ts` (`UserRole`). -/
inductive UserRole where
  | ADMIN
  | STAFF
  | CLINIC
deriving DecidableEq

/-- Report statuses, from `src/types.ts` (`ReportStatus`). -/
inductive ReportStatus where
  | PENDING
  | APPROVED
  | REJECTED
deriving DecidableEq

/-- The JavaScript value found under the `exp` claim of a decoded payload.
`num e` is a numeric value (seconds since epoch); `absent` is a missing
claim (`undefined`); `nonNum` is any present value whose numeric coercion
is `NaN` (so that `exp * 1000 < now` evaluates to `false`, as every
comparison with `NaN` does). -/
inductive JsExp where
  | num (seconds : Int)
  | absent
  | nonNum
deriving DecidableEq

/-- A decoded JWT claims payload, as accessed by `parseToken` in
`src/context/AuthContext.tsx`.  Each field models one property access on the
parsed JSON object; `none` is JavaScript `undefined`. -/
structure Payload where
  exp : JsExp := JsExp.absent
  groups : Option (List String) := none
  sub : Option String := none
  name : Option String := none
  username : Option String := none
  email : Option String := none
  clinicId : Option String := none
  clinicName : Option String := none
deriving DecidableEq

/-- The `User` record constructed by `parseToken`
(`src/types.ts` interface `User`; `id` is `decodedPayload.sub`, which may be
`undefined`). -/
structure User where
  id : Option String
  name : String
  email : Option String
  role : UserRole
  clinicId : Option String
  clinicName : Option String
deriving DecidableEq

/-- JavaScript `a || b` on strings: the empty string is falsy. -/
def jsOr (a b : String) : String := if a = "" then b else a

/-- JavaScript `a || b` where `a` may be `undefined` (`none`) or a string:
both `undefined` and `""` fall through to `b`. -/
def jsOrOpt (a : Option String) (b : String) : String := jsOr (a.getD "") b

/-- Accumulator-style splitter over characters: `splitDotAux cs acc` emits
the segment collected in `acc` (reversed) at each `'.'` and at the end. -/
def splitDotAux : List Char → List Char → List String
  | [], acc => [String.mk acc.reverse]
  | c :: rest, acc =>
    if c = '.' then String.mk acc.reverse :: splitDotAux rest []
    else splitDotAux rest (c :: acc)

/-- JavaScript `s.split(".")`: split at every `'.'`, keeping empty segments
(`"" → [""]`, `"a." → ["a", ""]`). -/
def jsSplitDot (s : String) : List String := splitDotAux s.data []

/-- Base64url to base64 character substitution from `decodeJwtPayload`
(`src/context/AuthContext.tsx` line 35): `-` becomes `+`, `_` becomes `/`. -/
def b64urlToB64 (s : String) : String :=
  String.mk (s.data.map (fun c => if c = '-' then '+' else if c = '_' then '/' else c))

/-- Padding step from `decodeJwtPayload` (line 37):
`base64 + "=".repeat((4 - (base64.length % 4)) % 4)`. -/
def padB64 (s : String) : String :=
  s ++ String.mk (List.replicate ((4 - s.length % 4) % 4) '=')

/-- Body of `decodeJwtPayload` from `src/context/AuthContext.tsx` lines
30-41, applied to the already-extracted payload segment.  `atob` and
`jsonParse` are the host primitives `atob` and `JSON.parse` (composed with
the property accesses that build a `Payload`); `none` models a throw.  A
falsy segment (`undefined` from a missing index, or `""`) throws
`Invalid JWT`; otherwise the segment is converted from base64url to padded
base64, decoded, and parsed. -/
def payloadSegmentDecode (atob : String → Option String)
    (jsonParse : String → Option Payload) (base64Url : String) : Option Payload :=
  if base64Url = "" then none
  else
    match atob (padB64 (b64urlToB64 base64Url)) with
    | none => none
    | some json => jsonParse json

/-- The full `decodeJwtPayload`: take the second dot-separated segment
(defaulting to the falsy `""` when fewer than two segments exist) and decode
it via `payloadSegmentDecode`. -/
def decodeJwtPayload (atob : String → Option String) (jsonParse : String → Option Payload)
    (jwt : String) : Option Payload :=
  payloadSegmentDecode atob jsonParse ((jsSplitDot jwt).getD 1 "")

/-- The expiry test from `parseToken` line 48:
`decodedPayload.exp * 1000 < Date.now()`.  When `exp` is absent or coerces
to `NaN`, the comparison is `false`. -/
def expMillisLtNow (e : JsExp) (now : Int) : Bool :=
  match e with
  | JsExp.num x => decide (x * 1000 < now)
  | JsExp.absent => false
  | JsExp.nonNum => false

/-- The group-to-role mapping from `parseToken` lines 58-65: default
`CLINIC`, then the `if`/`else if` chain over `groups.includes` tests. -/
def roleFromGroupsAuth (groups : List String) : UserRole :=
  if groups.contains "MedisysAdmin" || groups.contains "MedSysAdmin"
      || groups.contains "Admin" then UserRole.ADMIN
  else if groups.contains "MedisysStaff" || groups.contains "MedSysStaff"
      || groups.contains "Staff" then UserRole.STAFF
  else if groups.contains "ClinicStaff" || groups.contains "ClinicUser" then UserRole.CLINIC
  else UserRole.CLINIC

/-- Role computation as worded by the spec (section 4.2 step 5): test the
alias tiers in order — Administrator aliases, then StaffReviewer aliases,
then ClinicSubmitter aliases — first match wins, no match defaults to
ClinicSubmitter. -/
def roleSpecFirstMatch (groups : List String) : UserRole :=
  if (["MedisysAdmin", "MedSysAdmin", "Admin"]).any (fun a => groups.contains a) then
    UserRole.ADMIN
  else if (["MedisysStaff", "MedSysStaff", "Staff"]).any (fun a => groups.contains a) then
    UserRole.STAFF
  else if (["ClinicStaff", "ClinicUser"]).any (fun a => groups.contains a) then
    UserRole.CLINIC
  else UserRole.CLINIC

/-- The `User` constructed by `parseToken` lines 67-78: display name is the
first truthy of `name`, `cognito:username`, `email`, else `"N/A"`; groups
default to `[]` (`decodedPayload["cognito:groups"] || []`). -/
def mkCognitoUser (p : Payload) : User :=
  { id := p.sub
    name := jsOrOpt p.name (jsOrOpt p.username (jsOrOpt p.email "N/A"))
    email := p.email
    role := roleFromGroupsAuth (p.groups.getD [])
    clinicId := p.clinicId
    clinicName := p.clinicName }

/-- Result of `parseToken`: the derived session (or `none`) and whether
`localStorage.removeItem(TOKEN_STORAGE_KEY)` was called. -/
structure ParseOutcome where
  session : Option User
  storageCleared : Bool
deriving DecidableEq

/-- `parseToken` from `src/context/AuthContext.tsx` lines 43-85.  Any throw
inside the `try` (modelled by `decodeJwtPayload` returning `none`) is caught:
the persisted token is removed and `null` is returned.  An expired token
also removes the persisted token and returns `null`.  Otherwise a `User` is
built and returned.  Totality of this definition reflects the source's
never-throws guarantee. -/
def parseToken (atob : String → Option String) (jsonParse : String → Option Payload)
    (now : Int) (idToken : String) : ParseOutcome :=
  match decodeJwtPayload atob jsonParse idToken with
  | none => { session := none, storageCleared := true }
  | some p =>
    if expMillisLtNow p.exp now then { session := none, storageCleared := true }
    else { session := some (mkCognitoUser p), storageCleared := false }

/-- Helper: the source's `if`/`else if` role chain agrees with the spec's
ordered first-match formulation on every group list. -/
theorem roleFromGroupsAuth_eq_spec (groups : List String) :
    roleFromGroupsAuth groups = roleSpecFirstMatch groups := by
  simp [roleFromGroupsAuth, roleSpecFirstMatch, List.any_cons, List.any_nil,
    Bool.or_assoc, Bool.or_false]

/-- Stub host primitive: an `atob` that succeeds on every input. -/
def atobStub : String → Option String := fun _ => some "x"

/-- Stub parse result: the spec's scenario payload with an admin group. -/
def payloadAdmin : Payload :=
  { exp := JsExp.num 9999999999
    groups := some ["MedisysAdmin"]
    sub := some "u1"
    email := some "a@x.com" }

/-- Stub host primitive: a parse that yields `payloadAdmin`. -/
def jsonParseAdmin : String → Option Payload := fun _ => some payloadAdmin

/-- Claim C1: for every raw token that decodes to a valid, non-expired
claims payload, `parseToken` returns a session whose role is computed by
testing the group list against the Administrator aliases
(MedisysAdmin, MedSysAdmin, Admin), then the StaffReviewer aliases
(MedisysStaff, MedSysStaff, Staff), then the ClinicSubmitter aliases
(ClinicStaff, ClinicUser), first match winning, with ClinicSubmitter as the
default when no alias matches. -/
theorem parseToken_role_precedence
    (atob : String → Option String) (jsonParse : String → Option Payload)
    (now : Int) (idToken : String) (p : Payload)
    (hdec : decodeJwtPayload atob jsonParse idToken = some p)
    (hexp : expMillisLtNow p.exp now = false) :
    (parseToken atob jsonParse now idToken).session = some (mkCognitoUser p) ∧
    (mkCognitoUser p).role = roleSpecFirstMatch (p.groups.getD []) := by
  refine ⟨?_, ?_⟩
  · simp [parseToken, hdec, hexp]
  · show roleFromGroupsAuth _ = _
    exact roleFromGroupsAuth_eq_spec _

/-- Concrete instance of claim C1: the spec's scenario token (admin group,
far-future expiry) yields an Administrator session. -/
theorem parseToken_role_precedence_witness :
    (parseToken atobStub jsonParseAdmin 0 "h.p.s").session = some (mkCognitoUser payloadAdmin) ∧
    (mkCognitoUser payloadAdmin).role = roleSpecFirstMatch (payloadAdmin.groups.getD []) :=
  parseToken_role_precedence atobStub jsonParseAdmin 0 "h.p.s" payloadAdmin (by decide) (by decide)

/-- Stub parse result: a payload whose expiry claim is the number 1. -/
def payloadExpOne : Payload := { exp := JsExp.num 1, sub := some "u1" }

/-- Stub host primitive: a parse that yields `payloadExpOne`. -/
def jsonParseExpOne : String → Option Payload := fun _ => some payloadExpOne

/-- Counterexample to claim C2 as stated: at `now = 1000` milliseconds a
token with `exp = 1` satisfies `exp * 1000 <= now`, yet `parseToken` returns
a session and does not clear storage — the source's comparison on line 48 is
strict (`exp * 1000 < Date.now()`), not `<=`. -/
theorem parseToken_expiry_boundary_cex :
    (1 : Int) * 1000 ≤ 1000 ∧
    (parseToken atobStub jsonParseExpOne 1000 "h.p.s").session ≠ none ∧
    (parseToken atobStub jsonParseExpOne 1000 "h.p.s").storageCleared = false := by
  refine ⟨by decide, by decide, by decide⟩

/-- Claim C2 (amended): for every token whose numeric expiry claim satisfies
`expiry * 1000 < now` (strictly), session derivation returns absent and
clears the persisted token; consequently a session constructed from a token
with a numeric expiry claim satisfies `expiry * 1000 ≥ now` at construction
time (not-yet-elapsed, but not necessarily strictly in the future). -/
theorem parseToken_expired_strict
    (atob : String → Option String) (jsonParse : String → Option Payload)
    (now : Int) (idToken : String) (p : Payload) (e : Int)
    (hdec : decodeJwtPayload atob jsonParse idToken = some p)
    (he : p.exp = JsExp.num e) :
    (e * 1000 < now →
      parseToken atob jsonParse now idToken = { session := none, storageCleared := true }) ∧
    (now ≤ e * 1000 →
      (parseToken atob jsonParse now idToken).session = some (mkCognitoUser p)) := by
  constructor
  · intro hlt
    simp [parseToken, hdec, expMillisLtNow, he, hlt]
  · intro hge
    have hnot : ¬(e * 1000 < now) := not_lt.mpr hge
    simp [parseToken, hdec, expMillisLtNow, he, hnot]

/-- Concrete instance of amended claim C2: at `now = 2000`, a token with
`exp = 1` (so `exp * 1000 = 1000 < 2000`) yields absent and clears
storage. -/
theorem parseToken_expired_strict_witness :
    parseToken atobStub jsonParseExpOne 2000 "h.p.s" = { session := none, storageCleared := true } :=
  (parseToken_expired_strict atobStub jsonParseExpOne 2000 "h.p.s" payloadExpOne 1
    (by decide) (by decide)).1 (by decide)

/-- Helper: `payloadSegmentDecode` fails when base64 decoding throws. -/
theorem payloadSegmentDecode_atob_none (atob : String → Option String)
    (jsonParse : String → Option Payload) (seg : String)
    (h : atob (padB64 (b64urlToB64 seg)) = none) :
    payloadSegmentDecode atob jsonParse seg = none := by
  by_cases hseg : seg = "" <;> simp [payloadSegmentDecode, hseg, h]

/-- Helper: `payloadSegmentDecode` fails when the decoded text does not
parse. -/
theorem payloadSegmentDecode_parse_none (atob : String → Option String)
    (jsonParse : String → Option Payload) (seg j : String)
    (hj : atob (padB64 (b64urlToB64 seg)) = some j) (hpj : jsonParse j = none) :
    payloadSegmentDecode atob jsonParse seg = none := by
  by_cases hseg : seg = "" <;> simp [payloadSegmentDecode, hseg, hj, hpj]

/-- Claim C4: for every malformed raw token — fewer than two dot-separated
segments, an empty payload segment, a payload segment on which base64
decoding fails, or decoded text that does not parse — `parseToken` returns
absent and clears the persisted token.  The model is a total function, so
no exception escapes (the source wraps everything in `try`/`catch`). -/
theorem parseToken_malformed_fail_closed
    (atob : String → Option String) (jsonParse : String → Option Payload)
    (now : Int) (idToken : String)
    (h : (jsSplitDot idToken).length < 2 ∨
         (jsSplitDot idToken).getD 1 "" = "" ∨
         atob (padB64 (b64urlToB64 ((jsSplitDot idToken).getD 1 ""))) = none ∨
         (∃ j, atob (padB64 (b64urlToB64 ((jsSplitDot idToken).getD 1 ""))) = some j ∧
            jsonParse j = none)) :
    parseToken atob jsonParse now idToken = { session := none, storageCleared := true } := by
  have hdec : decodeJwtPayload atob jsonParse idToken = none := by
    show payloadSegmentDecode atob jsonParse ((jsSplitDot idToken).getD 1 "") = none
    rcases h with h | h | h | ⟨j, hj, hpj⟩
    · have hseg : (jsSplitDot idToken).getD 1 "" = "" :=
        List.getD_eq_default _ _ (by omega)
      rw [hseg]
      simp [payloadSegmentDecode]
    · rw [h]
      simp [payloadSegmentDecode]
    · exact payloadSegmentDecode_atob_none atob jsonParse _ h
    · exact payloadSegmentDecode_parse_none atob jsonParse _ j hj hpj
  simp [parseToken, hdec]

/-- Concrete instance of claim C4: a token with no dot at all (a single
segment) yields absent with storage cleared. -/
theorem parseToken_malformed_fail_closed_witness :
    parseToken atobStub jsonParseAdmin 0 "nodotsegment" = { session := none, storageCleared := true } :=
  parseToken_malformed_fail_closed atobStub jsonParseAdmin 0 "nodotsegment"
    (Or.inl (by decide))

/-- Stub parse result: a payload with no expiry claim. -/
def payloadNoExp : Payload := { sub := some "u2", email := some "b@x.com" }

/-- Stub host primitive: a parse that yields `payloadNoExp`. -/
def jsonParseNoExp : String → Option Payload := fun _ => some payloadNoExp

/-- Claim C9: a token whose payload parses but whose `exp` claim is absent,
or present but coercing to `NaN`, is NOT treated as expired — the comparison
`exp * 1000 < Date.now()` is `false` for `NaN` — so `parseToken` constructs
and returns a session and does not clear storage. -/
theorem parseToken_no_numeric_exp_yields_session
    (atob : String → Option String) (jsonParse : String → Option Payload)
    (now : Int) (idToken : String) (p : Payload)
    (hdec : decodeJwtPayload atob jsonParse idToken = some p)
    (hexp : p.exp = JsExp.absent ∨ p.exp = JsExp.nonNum) :
    (parseToken atob jsonParse now idToken).session = some (mkCognitoUser p) ∧
    (parseToken atob jsonParse now idToken).storageCleared = false := by
  rcases hexp with h | h <;>
    exact ⟨by simp [parseToken, hdec, expMillisLtNow, h], by simp [parseToken, hdec, expMillisLtNow, h]⟩

/-- Concrete instance of claim C9: a payload with no `exp` claim still
yields a logged-in session, even at a large current time. -/
theorem parseToken_no_numeric_exp_yields_session_witness :
    (parseToken atobStub jsonParseNoExp 99999999999999 "h.p.s").session = some (mkCognitoUser payloadNoExp) ∧
    (parseToken atobStub jsonParseNoExp 99999999999999 "h.p.s").storageCleared = false :=
  parseToken_no_numeric_exp_yields_session atobStub jsonParseNoExp 99999999999999 "h.p.s"
    payloadNoExp (by decide) (Or.inl (by decide))

/-- Route tags for the protected routes of `src/App.tsx` `Main`. -/
inductive RouteTag where
  | dashboard
  | reports
  | upload
  | users
deriving DecidableEq

/-- Route registration from `src/App.tsx` lines 43-57: `Dashboard` and
`Reports` are registered for every logged-in role; `/upload` is registered
only when `user.role === UserRole.CLINIC`; `/users` only when
`user.role === UserRole.ADMIN`. -/
def routeRegistered (role : UserRole) (rt : RouteTag) : Bool :=
  match rt with
  | RouteTag.dashboard => true
  | RouteTag.reports => true
  | RouteTag.upload => decide (role = UserRole.CLINIC)
  | RouteTag.users => decide (role = UserRole.ADMIN)

/-- The views the `UserManagement` page can render
(`src/pages/UserManagement.tsx` lines 194-209 and the main grid). -/
inductive UMView where
  | unauthorized
  | loadingView
  | errorView
  | usersGrid
deriving DecidableEq

/-- Render logic of `UserManagement`: the unauthorized gate
(`user?.role !== UserRole.ADMIN`) is checked first, before the loading and
error branches, so no user data is ever rendered for a non-admin. -/
def userManagementView (u : Option User) (loading : Bool) (err : Option String) : UMView :=
  if ¬(u.map User.role = some UserRole.ADMIN) then UMView.unauthorized
  else if loading then UMView.loadingView
  else if err.isSome then UMView.errorView
  else UMView.usersGrid

/-- Review/delete action visibility in the `Reports` page: the actions
column exists only in the non-staff table (`!isStaff`) and renders only when
`!isClinic` (`src/pages/Reports.tsx` lines 646-648, 688-723), i.e. for the
admin role alone. -/
def reportsActionsShown (role : UserRole) : Bool :=
  !decide (role = UserRole.STAFF) && !decide (role = UserRole.CLINIC)

/-- Claim C3: the role-to-capability gating matches the spec's table: every
non-admin user (or a missing user) attempting the User Management route gets
the Unauthorized view regardless of loading/error state; the Upload route is
registered exactly for ClinicSubmitter; the User Management route is
registered exactly for Administrator; and the review/delete actions render
exactly for Administrator. -/
theorem role_capability_gating :
    (∀ (u : Option User) (loading : Bool) (err : Option String),
      ¬(u.map User.role = some UserRole.ADMIN) →
        userManagementView u loading err = UMView.unauthorized) ∧
    (∀ role : UserRole, routeRegistered role RouteTag.upload = true ↔ role = UserRole.CLINIC) ∧
    (∀ role : UserRole, routeRegistered role RouteTag.users = true ↔ role = UserRole.ADMIN) ∧
    (∀ role : UserRole, reportsActionsShown role = true ↔ role = UserRole.ADMIN) := by
  refine ⟨?_, ?_, ?_, ?_⟩
  · intro u loading err h
    simp [userManagementView, h]
  · intro role
    cases role <;> simp [routeRegistered]
  · intro role
    cases role <;> simp [routeRegistered]
  · intro role
    cases role <;> simp [reportsActionsShown]

/-- A staff user record used to instantiate claim C3 concretely. -/
def staffUser : User :=
  { id := some "u3", name := "s", email := none, role := UserRole.STAFF,
    clinicId := none, clinicName := none }

/-- Concrete instance of claim C3: a StaffReviewer hitting User Management
gets the Unauthorized view even when not loading and with no error. -/
theorem role_capability_gating_witness :
    userManagementView (some staffUser) false none = UMView.unauthorized :=
  role_capability_gating.1 (some staffUser) false none (by decide)

/-- A raw report record as consumed by the `Reports` page: each field models
one property access on a loosely-typed API record (`none` = absent). -/
structure RawReport where
  ReportId : Option String := none
  REPORT_ID : Option String := none
  id : Option String := none
  reportId : Option String := none
  PATIENT_ID : Option String := none
  patientId : Option String := none
  PATIENTFIRSTNAME : Option String := none
  PATIENTLASTNAME : Option String := none
  patientName : Option String := none
  status : Option String := none
  Status : Option String := none
  UploadTime : Option String := none
deriving DecidableEq

/-- JavaScript `a ?? b ?? ...` over a list of candidates: the first value
that is not null/undefined wins (the empty string is NOT skipped). -/
def firstSome : List (Option String) → Option String
  | [] => none
  | o :: rest =>
    match o with
    | some a => some a
    | none => firstSome rest

/-- ASCII-faithful model of JavaScript `String.prototype.toUpperCase` on one
character: lowercase letters a-z map to A-Z, everything else is unchanged. -/
def jsUpperChar (c : Char) : Char :=
  if 97 ≤ c.toNat ∧ c.toNat ≤ 122 then Char.ofNat (c.toNat - 32) else c

/-- JavaScript `s.toUpperCase()` (ASCII fragment). -/
def jsToUpper (s : String) : String := String.mk (s.data.map jsUpperChar)

/-- `[r?.PATIENTFIRSTNAME, r?.PATIENTLASTNAME].filter(Boolean).join(" ")`
(both tables, `src/pages/Reports.tsx` lines 655-656 and 777-779): drop the
falsy entries (absent or empty) and join the rest with a space. -/
def joinedName (r : RawReport) : String :=
  String.intercalate " "
    (((([r.PATIENTFIRSTNAME, r.PATIENTLASTNAME]).filterMap (fun x => x)).filter
      (fun s => s != "")))

/-- Admin/clinic table report id (line 653):
`r?.ReportId ?? r?.REPORT_ID ?? r?.id ?? r?.reportId ?? idx`, stringified. -/
def adminReportId (r : RawReport) (idx : Nat) : String :=
  match firstSome [r.ReportId, r.REPORT_ID, r.id, r.reportId] with
  | some s => s
  | none => toString idx

/-- Admin/clinic table patient id (line 654):
`r?.PATIENT_ID ?? r?.patientId ?? ""` (the render later shows `"—"` when
falsy; this is the value used inside the name fallback chain). -/
def adminPatientId (r : RawReport) : String :=
  (firstSome [r.PATIENT_ID, r.patientId]).getD ""

/-- Admin/clinic table patient name (lines 655-659): joined first/last name,
else `patientName`, else the patient id, else `"—"` (all via falsy `||`). -/
def adminFullName (r : RawReport) : String :=
  jsOr (joinedName r) (jsOrOpt r.patientName (jsOr (adminPatientId r) "—"))

/-- Staff table report id (line 776): `r?.ReportId ?? r?.REPORT_ID ?? idx`,
stringified — note the missing `id`/`reportId` aliases. -/
def staffReportId (r : RawReport) (idx : Nat) : String :=
  match firstSome [r.ReportId, r.REPORT_ID] with
  | some s => s
  | none => toString idx

/-- Staff table patient name (lines 777-789):
`fullName || r?.PATIENT_ID || "—"` — note the missing `patientName` and
lowercase `patientId` fallbacks. -/
def staffFullName (r : RawReport) : String :=
  jsOr (joinedName r) (jsOrOpt r.PATIENT_ID "—")

/-- `asStatusEnum` (`src/pages/Reports.tsx` lines 577-584):
`String(r?.status ?? r?.Status ?? "PENDING").toUpperCase()`, then
`APPROVED`/`REJECTED`/else-`PENDING`. -/
def asStatusEnum (r : RawReport) : ReportStatus :=
  let s := jsToUpper ((firstSome [r.status, r.Status]).getD "PENDING")
  if s = "APPROVED" then ReportStatus.APPROVED
  else if s = "REJECTED" then ReportStatus.REJECTED
  else ReportStatus.PENDING

/-- A record that carries its report id only under the lowercase `id` key. -/
def reportOnlyLowerId : RawReport := { id := some "42" }

/-- A record that carries its patient name only under `patientName`. -/
def reportOnlyPatientName : RawReport := { patientName := some "Bob" }

/-- Counterexample to claim C5 as stated: the admin/clinic table and the
staff table do NOT resolve every record identically.  A record with its id
under the lowercase `id` key renders as "42" in the admin table but as the
array index "0" in the staff table; a record with only `patientName`
renders as "Bob" in the admin table but as "—" in the staff table. -/
theorem report_alias_divergence_cex :
    adminReportId reportOnlyLowerId 0 = "42" ∧
    staffReportId reportOnlyLowerId 0 = "0" ∧
    adminFullName reportOnlyPatientName = "Bob" ∧
    staffFullName reportOnlyPatientName = "—" := by
  refine ⟨by decide, by decide, by decide, by decide⟩

/-- Claim C5 (amended): the two report tables resolve identically only on
records whose report id is present under one of the shared aliases
`ReportId`/`REPORT_ID` and whose first/last-name fields produce a nonempty
joined name; the staff table lacks the `id`, `reportId`, `patientName` and
lowercase `patientId` fallbacks of the admin/clinic table, so records that
rely on those keys render differently by entry point. -/
theorem report_alias_agreement (r : RawReport) (idx : Nat)
    (hid : r.ReportId.isSome ∨ r.REPORT_ID.isSome)
    (hname : joinedName r ≠ "") :
    adminReportId r idx = staffReportId r idx ∧ adminFullName r = staffFullName r := by
  constructor
  · rcases hid with h | h
    · obtain ⟨a, ha⟩ := Option.isSome_iff_exists.mp h
      simp [adminReportId, staffReportId, firstSome, ha]
    · obtain ⟨a, ha⟩ := Option.isSome_iff_exists.mp h
      cases hr : r.ReportId with
      | some b => simp [adminReportId, staffReportId, firstSome, hr]
      | none => simp [adminReportId, staffReportId, firstSome, hr, ha]
  · simp [adminFullName, staffFullName, jsOr, hname]

/-- A record with a `ReportId` and nonempty name fields used to instantiate
claim C5's amended agreement concretely. -/
def reportShared : RawReport :=
  { ReportId := some "r9", PATIENTFIRSTNAME := some "Ann", PATIENTLASTNAME := some "Lee" }

/-- Concrete instance of amended claim C5: a record using only the shared
aliases renders identically in both tables. -/
theorem report_alias_agreement_witness :
    adminReportId reportShared 3 = staffReportId reportShared 3 ∧
    adminFullName reportShared = staffFullName reportShared :=
  report_alias_agreement reportShared 3 (Or.inl (by decide)) (by decide)

/-- The spec scenario record `{"REPORT_ID": "7", "Status": "approved"}`. -/
def reportSeven : RawReport := { REPORT_ID := some "7", Status := some "approved" }

/-- Claim C8: status normalization is case-insensitive over the `status`
then `Status` keys: an uppercased value equal to `"APPROVED"` maps to
Approved, `"REJECTED"` to Rejected, anything else — including an absent
status — to Pending; and the scenario record
`{"REPORT_ID": "7", "Status": "approved"}` normalizes to id `"7"` with
status Approved. -/
theorem status_normalization :
    (∀ (r : RawReport) (s : String), firstSome [r.status, r.Status] = some s →
      jsToUpper s = "APPROVED" → asStatusEnum r = ReportStatus.APPROVED) ∧
    (∀ (r : RawReport) (s : String), firstSome [r.status, r.Status] = some s →
      jsToUpper s = "REJECTED" → asStatusEnum r = ReportStatus.REJECTED) ∧
    (∀ (r : RawReport) (s : String), firstSome [r.status, r.Status] = some s →
      jsToUpper s ≠ "APPROVED" → jsToUpper s ≠ "REJECTED" →
      asStatusEnum r = ReportStatus.PENDING) ∧
    (∀ r : RawReport, firstSome [r.status, r.Status] = none →
      asStatusEnum r = ReportStatus.PENDING) ∧
    (adminReportId reportSeven 0 = "7" ∧ asStatusEnum reportSeven = ReportStatus.APPROVED) := by
  refine ⟨?_, ?_, ?_, ?_, by decide, by decide⟩
  · intro r s hs hup
    simp [asStatusEnum, hs, hup]
  · intro r s hs hup
    simp [asStatusEnum, hs, hup]
  · intro r s hs hupA hupR
    simp [asStatusEnum, hs, hupA, hupR]
  · intro r hs
    simp [asStatusEnum, hs]
    decide
/-- Concrete instance of claim C8: a lowercase `"approved"` under the
`Status` key maps to the Approved status. -/
theorem status_normalization_witness :
    asStatusEnum reportSeven = ReportStatus.APPROVED :=
  status_normalization.1 reportSeven "approved" (by decide) (by decide)

/-- Sort key of the staff reports fetch (`src/pages/Reports.tsx` line 465):
`String(a.UploadTime ?? "")`. -/
def uploadKey (r : RawReport) : String := r.UploadTime.getD ""

/-- The staff branch of `fetchReports` (lines 461-469): sort in place with
the ascending `localeCompare` comparator on `uploadKey`, then reverse.
`localeCompare` is modelled as lexicographic string comparison and the
in-place `Array.prototype.sort` as a stable sort. -/
def staffDisplayedOrder (rs : List RawReport) : List RawReport :=
  (rs.mergeSort (fun a b => decide (uploadKey a ≤ uploadKey b))).reverse

/-- A single stable sort with the descending comparator on `uploadKey`. -/
def staffDescendingSort (rs : List RawReport) : List RawReport :=
  rs.mergeSort (fun a b => decide (uploadKey b ≤ uploadKey a))

/-- Claim C10: the staff view's sort-ascending-then-reverse sequence leaves
the list pairwise descending by `UploadTime` (newest first), and on every
input whose `UploadTime` keys are pairwise distinct it produces exactly the
same list as a single sort with the descending comparator. -/
theorem staff_sort_reverse_eq_desc (rs : List RawReport)
    (hnd : (rs.map uploadKey).Nodup) :
    (staffDisplayedOrder rs).Pairwise (fun a b => uploadKey b ≤ uploadKey a) ∧
    staffDisplayedOrder rs = staffDescendingSort rs := by
  have hascB := @List.sorted_mergeSort RawReport
    (fun a b : RawReport => decide (uploadKey a ≤ uploadKey b))
    (by intro a b c hab hbc; simp at hab hbc ⊢; exact le_trans hab hbc)
    (by intro a b; simpa using le_total (uploadKey a) (uploadKey b)) rs
  have hasc : (rs.mergeSort (fun a b => decide (uploadKey a ≤ uploadKey b))).Pairwise
      (fun a b => uploadKey a ≤ uploadKey b) := by
    refine hascB.imp ?_
    intro a b h
    simpa using h
  have hdisp : (staffDisplayedOrder rs).Pairwise (fun a b => uploadKey b ≤ uploadKey a) := by
    unfold staffDisplayedOrder
    exact List.pairwise_reverse.mpr hasc
  have hdescB := @List.sorted_mergeSort RawReport
    (fun a b : RawReport => decide (uploadKey b ≤ uploadKey a))
    (by intro a b c hab hbc; simp at hab hbc ⊢; exact le_trans hbc hab)
    (by intro a b; simpa using (le_total (uploadKey a) (uploadKey b)).symm) rs
  have hdesc : (staffDescendingSort rs).Pairwise (fun a b => uploadKey b ≤ uploadKey a) := by
    refine hdescB.imp ?_
    intro a b h
    simpa using h
  have hperm1 : (staffDisplayedOrder rs).Perm rs := by
    unfold staffDisplayedOrder
    exact (List.reverse_perm _).trans (List.mergeSort_perm rs _)
  have hperm2 : (staffDescendingSort rs).Perm rs := List.mergeSort_perm rs _
  have hperm : (staffDisplayedOrder rs).Perm (staffDescendingSort rs) :=
    hperm1.trans hperm2.symm
  have hnd1 : ((staffDisplayedOrder rs).map uploadKey).Nodup :=
    ((hperm1.map uploadKey).nodup_iff).mpr hnd
  have hnd2 : ((staffDescendingSort rs).map uploadKey).Nodup :=
    ((hperm2.map uploadKey).nodup_iff).mpr hnd
  have hstrict1 : (staffDisplayedOrder rs).Pairwise (fun a b => uploadKey b < uploadKey a) := by
    have hne : (staffDisplayedOrder rs).Pairwise (fun a b => uploadKey a ≠ uploadKey b) :=
      List.pairwise_map.mp hnd1
    refine (hdisp.and hne).imp ?_
    intro a b h
    exact lt_of_le_of_ne h.1 (Ne.symm h.2)
  have hstrict2 : (staffDescendingSort rs).Pairwise (fun a b => uploadKey b < uploadKey a) := by
    have hne : (staffDescendingSort rs).Pairwise (fun a b => uploadKey a ≠ uploadKey b) :=
      List.pairwise_map.mp hnd2
    refine (hdesc.and hne).imp ?_
    intro a b h
    exact lt_of_le_of_ne h.1 (Ne.symm h.2)
  haveI : IsAntisymm RawReport (fun a b => uploadKey b < uploadKey a) :=
    ⟨fun a b hab hba => ((lt_asymm hab) hba).elim⟩
  exact ⟨hdisp, List.eq_of_perm_of_sorted hperm hstrict1 hstrict2⟩

/-- Three reports with distinct upload times, for instantiating C10. -/
def reportT1 : RawReport := { REPORT_ID := some "1", UploadTime := some "2024-01-05" }

/-- Second report for the C10 instance. -/
def reportT2 : RawReport := { REPORT_ID := some "2", UploadTime := some "2024-03-01" }

/-- Third report for the C10 instance. -/
def reportT3 : RawReport := { REPORT_ID := some "3", UploadTime := some "2024-02-11" }

/-- Concrete instance of claim C10: on a three-element list with distinct
upload times, sort-then-reverse equals the single descending sort. -/
theorem staff_sort_reverse_eq_desc_witness :
    ([reportT1, reportT2, reportT3].map uploadKey).Nodup ∧
    staffDisplayedOrder [reportT1, reportT2, reportT3] =
      staffDescendingSort [reportT1, reportT2, reportT3] :=
  ⟨by decide, (staff_sort_reverse_eq_desc [reportT1, reportT2, reportT3] (by decide)).2⟩

/-- ASCII-faithful model of JavaScript `String.prototype.toLowerCase` on
one character. -/
def jsLowerChar (c : Char) : Char :=
  if 65 ≤ c.toNat ∧ c.toNat ≤ 90 then Char.ofNat (c.toNat + 32) else c

/-- JavaScript `s.toLowerCase()` (ASCII fragment). -/
def jsToLower (s : String) : String := String.mk (s.data.map jsLowerChar)

/-- The filename guard `/\.csv$/i.test(file.name)` of both upload handlers:
the name ends in `.csv`, case-insensitively. -/
def csvNameOk (name : String) : Bool :=
  List.isSuffixOf (".csv".data) (jsToLower name).data

/-- The direct `fetch` PUT response: HTTP status, body text, status text. -/
structure PutResponse where
  status : Nat
  body : String
  statusText : String
deriving DecidableEq

/-- `Response.ok`: status in the 2xx range. -/
def putOk (p : PutResponse) : Bool := decide (200 ≤ p.status) && decide (p.status < 300)

/-- Kind of a transient notification (`flash`). -/
inductive NoticeKind where
  | success
  | error
deriving DecidableEq

/-- Observable outcome of one run of `handleFileUpload`: the flash shown,
whether `fetchReports()` was re-issued, and whether the PUT was attempted. -/
structure UploadOutcome where
  notice : Option (NoticeKind × String)
  refetched : Bool
  putAttempted : Bool
deriving DecidableEq

/-- `handleFileUpload` from `src/pages/Reports.tsx` lines 527-570.
`presign` is the settled result of `requestUploadUrl` (`Except.error` models
a rejected promise whose message reaches the catch).  A non-csv name alerts
and returns before any network call.  A non-2xx PUT throws
`S3 upload failed: {status} {body || statusText}`, caught as an error
flash; `fetchReports()` runs only after a 2xx PUT, strictly after the
success flash. -/
def handleFileUpload (fileName : String) (presign : Except String String)
    (putResp : PutResponse) : UploadOutcome :=
  if !csvNameOk fileName then
    { notice := none, refetched := false, putAttempted := false }
  else
    match presign with
    | Except.error msg =>
      { notice := some (NoticeKind.error, msg), refetched := false, putAttempted := false }
    | Except.ok _uploadUrl =>
      if !putOk putResp then
        { notice := some (NoticeKind.error,
            "S3 upload failed: " ++ toString putResp.status ++ " "
              ++ jsOr putResp.body putResp.statusText),
          refetched := false, putAttempted := true }
      else
        { notice := some (NoticeKind.success,
            "Report file \"" ++ fileName ++ "\" uploaded successfully. Processing has started."),
          refetched := true, putAttempted := true }

/-- Claim C7: when the upload-URL request succeeds but the direct PUT
returns a non-2xx response with a nonempty body, the orchestrator surfaces
an error notification carrying the HTTP status and the body text, and does
not re-fetch the report list; moreover a re-fetch ever occurs only when the
PUT resolved 2xx. -/
theorem upload_put_failure_no_refetch :
    (∀ (fileName u : String) (putResp : PutResponse),
      csvNameOk fileName = true → putOk putResp = false → putResp.body ≠ "" →
      (handleFileUpload fileName (Except.ok u) putResp).notice =
        some (NoticeKind.error,
          "S3 upload failed: " ++ toString putResp.status ++ " " ++ putResp.body) ∧
      (handleFileUpload fileName (Except.ok u) putResp).refetched = false) ∧
    (∀ (fileName : String) (presign : Except String String) (putResp : PutResponse),
      (handleFileUpload fileName presign putResp).refetched = true →
      putOk putResp = true) := by
  constructor
  · intro fn u pr hcsv hput hbody
    constructor <;> simp [handleFileUpload, hcsv, hput, jsOr, hbody]
  · intro fn ps pr h
    unfold handleFileUpload at h
    by_cases hcsv : csvNameOk fn = true
    · rw [hcsv] at h
      cases ps with
      | error m => simp at h
      | ok u =>
        by_cases hput : putOk pr = true
        · exact hput
        · rw [Bool.not_eq_true] at hput
          rw [hput] at h
          simp at h
    · rw [Bool.not_eq_true] at hcsv
      rw [hcsv] at h
      simp at h

/-- A 403 PUT response with a body, for the C7 instance. -/
def put403 : PutResponse := { status := 403, body := "Access denied", statusText := "Forbidden" }

/-- Concrete instance of claim C7: a 403 PUT after a successful presign
yields no re-fetch (and the hypotheses hold at this input). -/
theorem upload_put_failure_no_refetch_witness :
    csvNameOk "data.csv" = true ∧ putOk put403 = false ∧
    (handleFileUpload "data.csv" (Except.ok "u") put403).refetched = false :=
  ⟨by decide, by decide,
    (upload_put_failure_no_refetch.1 "data.csv" "u" put403 (by decide) (by decide)
      (by decide)).2⟩

/-- The controlled clinic-id input of the create-user form
(`src/pages/UserManagement.tsx` line 318): every change handler stores
`e.target.value.toUpperCase()`, so the field's value is always the
uppercased image of what was typed. -/
def clinicIdInputValue (typed : String) : String := jsToUpper typed

/-- The HTML `pattern` attribute compiled from the JSX literal
`pattern="^CLINIC_\\d+$"` (line 320).  JSX attribute strings do not process
backslash escapes, so the DOM receives the regex source `^CLINIC_\\d+$`:
the characters `CLINIC_`, then an escaped literal backslash, then one or
more literal lowercase `d` characters. -/
def jsxClinicPatternMatchL (l : List Char) : Bool :=
  match l with
  | 'C' :: 'L' :: 'I' :: 'N' :: 'I' :: 'C' :: '_' :: '\\' :: rest =>
    !rest.isEmpty && rest.all (fun c => c == 'd')
  | _ => false

/-- String version of `jsxClinicPatternMatchL`. -/
def jsxClinicPatternMatch (s : String) : Bool := jsxClinicPatternMatchL s.data

/-- The spec's intended pattern `CLINIC_<digits>` (uppercase `CLINIC_`
followed by one or more digits). -/
def clinicDigitsMatch (s : String) : Bool :=
  match s.data with
  | 'C' :: 'L' :: 'I' :: 'N' :: 'I' :: 'C' :: '_' :: rest =>
    !rest.isEmpty && rest.all Char.isDigit
  | _ => false

/-- Whether the create-user form submission fires `onCreate` (and with it
the `POST /user` call) for a given typed clinic id when the selected role is
ClinicSubmitter: the clinic-id input is rendered and `required` only for
that role, and the browser's constraint validation blocks submission unless
the (uppercased) value is nonempty and matches the `pattern` attribute.
`onCreate` itself performs no clinic-id validation. -/
def createUserPostIssued (role : UserRole) (typedClinicId : String) : Bool :=
  if role = UserRole.CLINIC then
    (clinicIdInputValue typedClinicId != "")
      && jsxClinicPatternMatch (clinicIdInputValue typedClinicId)
  else true

/-- Helper: no character uppercases (ASCII `toUpperCase`) to a lowercase
`d`. -/
theorem jsUpperChar_ne_lower_d (c : Char) : jsUpperChar c ≠ 'd' := by
  unfold jsUpperChar
  split
  · rename_i h
    intro heq
    have hval : (Char.ofNat (c.toNat - 32)).toNat = c.toNat - 32 := by
      have hv : Nat.isValidChar (c.toNat - 32) := Or.inl (by omega)
      unfold Char.ofNat
      rw [dif_pos hv]
      rfl
    have h100 := congrArg Char.toNat heq
    rw [hval] at h100
    have hd : Char.toNat 'd' = 100 := rfl
    rw [hd] at h100
    omega
  · rename_i h
    intro heq
    apply h
    rw [heq]
    exact ⟨by decide, by decide⟩

/-- Helper: the pattern from the JSX literal cannot match any list of
characters that avoids the lowercase `d`. -/
theorem jsxClinicPatternMatchL_no_d (l : List Char) (hl : ∀ c ∈ l, c ≠ 'd') :
    jsxClinicPatternMatchL l = false := by
  unfold jsxClinicPatternMatchL
  split
  · rename_i rest
    cases rest with
    | nil => rfl
    | cons x t =>
      have hx : x ≠ 'd' := by
        apply hl
        simp_all
      simp [List.all_cons, hx]
  · rfl

/-- Helper: the uppercased input value never matches the JSX pattern, since
uppercasing removes every lowercase `d`. -/
theorem jsxClinicPatternMatch_upper_false (typed : String) :
    jsxClinicPatternMatch (clinicIdInputValue typed) = false := by
  show jsxClinicPatternMatchL (typed.data.map jsUpperChar) = false
  apply jsxClinicPatternMatchL_no_d
  intro c hc
  obtain ⟨x, hx, rfl⟩ := List.mem_map.mp hc
  exact jsUpperChar_ne_lower_d x

/-- Claim C6: when a ClinicSubmitter user is created with a typed clinic id
that does not match the uppercase `CLINIC_<digits>` pattern (such as
`clinic_001`), the create-user workflow does not issue the `POST /user`
request: local (form constraint) validation blocks the submission before
any API call.  (In fact the pattern as written — with the JSX double
backslash — rejects every uppercased value, so no clinic-role submission
passes it.) -/
theorem clinic_id_validation_blocks (typed : String)
    (hbad : clinicDigitsMatch typed = false) :
    createUserPostIssued UserRole.CLINIC typed = false := by
  simp [createUserPostIssued, jsxClinicPatternMatch_upper_false typed]

/-- Concrete instance of claim C6: the typed clinic id `clinic_001` does not
match `CLINIC_<digits>` and the POST is not issued. -/
theorem clinic_id_validation_blocks_witness :
    clinicDigitsMatch "clinic_001" = false ∧
    createUserPostIssued UserRole.CLINIC "clinic_001" = false :=
  ⟨by decide, clinic_id_validation_blocks "clinic_001" (by decide)⟩
